import Mathlib

/-!
Verification of the `relax` HTTP client helper (package `relax`, files
`client.go` and `multipart_form.go`) against its natural-language
specification.

The development is a shallow embedding of the Go code.  The repository's
own code (`NewClient`, `GetQuery`, `MakeRequest`, `MakeMultipartRequest`,
`PostMultipartJson`, `GetResponse`, `ReadJson`, `DeleteJson`, `CreateJson`,
`UpdateJson`, `jsonResponse`) is translated line by line.  The external
collaborators it delegates to are modelled as follows:

* `net/url` (`Parse`, `IsAbs`, `ResolveReference`, `String`) is embedded
  from the Go standard library's control flow.  Components (path, host,
  userinfo, query, fragment) are stored in their escaped (wire) form and
  percent-escapes are validated but not decoded; the model therefore agrees
  with Go on every URL whose components need no re-encoding (all URLs in
  this development are of that form, as are the ones in the repository's
  tests).  Finer per-character validation of hosts and userinfo that the
  Go library performs is not modelled; no claim depends on it.
* the HTTP transport (`http.Client.Do`) and the filesystem (`os.Open` +
  reading) are oracles carried in an `Env` value;
* `encoding/json` is modelled by a JSON value type with a serializer
  (for `json.Marshal` of encodable values) and by a JSON well-formedness
  checker (for `json.Unmarshal` into a pointer-to-interface destination,
  which succeeds exactly when the body is syntactically valid JSON);
* Go `interface{}` arguments are modelled by `GoInterface`: the nil
  interface, or a non-nil value such as the result of taking an address
  with `&x` (which is never the nil interface, whatever `x` holds).
-/

/-! ## String helpers (counterparts of the `strings` package operations used) -/

/-- List-level test that the second list is an initial segment of the first. -/
def startsWithL : List Char → List Char → Bool
  | _, [] => true
  | [], _ :: _ => false
  | c :: cs, p :: ps => c == p && startsWithL cs ps

/-- Test that `p` is an initial segment of `s` (`strings.HasPrefix`). -/
def strStartsWith (s p : String) : Bool :=
  startsWithL s.toList p.toList

/-- Test that `p` is a final segment of `s` (`strings.HasSuffix`). -/
def strEndsWith (s p : String) : Bool :=
  startsWithL s.toList.reverse p.toList.reverse

/-- Test that `s` contains the character `c`. -/
def strContains (s : String) (c : Char) : Bool :=
  s.toList.any fun x => x == c

/-- ASCII lower-casing of one character. -/
def charLower (c : Char) : Char :=
  if 'A' ≤ c && c ≤ 'Z' then Char.ofNat (c.toNat + 32) else c

/-- ASCII lower-casing (`strings.ToLower`; the strings it is applied to —
schemes — are ASCII by construction). -/
def strToLower (s : String) : String :=
  String.mk (s.toList.map charLower)

/-- Worker for `splitOnChar`, collecting the current field in reverse. -/
def splitOnCharAux (c : Char) : List Char → List Char → List String
  | [], acc => [String.mk acc.reverse]
  | x :: xs, acc =>
    if x == c then String.mk acc.reverse :: splitOnCharAux c xs []
    else splitOnCharAux c xs (x :: acc)

/-- Split on a one-character separator (`strings.Split`). -/
def splitOnChar (c : Char) (s : String) : List String :=
  splitOnCharAux c s.toList []

/-- Index of the first occurrence of a character, if any (`strings.IndexByte`). -/
def indexOfAux (c : Char) : List Char → Nat → Option Nat
  | [], _ => none
  | x :: xs, i => if x = c then some i else indexOfAux c xs (i + 1)

/-- Index of the first occurrence of `c` in `s`. -/
def indexOfChar (c : Char) (s : String) : Option Nat :=
  indexOfAux c s.toList 0

/-- Index accumulator for the last occurrence of a character. -/
def lastIndexOfAux (c : Char) : List Char → Nat → Option Nat → Option Nat
  | [], _, acc => acc
  | x :: xs, i, acc => lastIndexOfAux c xs (i + 1) (if x = c then some i else acc)

/-- Index of the last occurrence of `c` in `s` (`strings.LastIndex` for a
one-byte separator). -/
def lastIndexOfChar (c : Char) (s : String) : Option Nat :=
  lastIndexOfAux c s.toList 0 none

/-- Model of `strings.Cut(s, sep)` for a one-character separator: the text
before and after the first occurrence, and whether it occurred. -/
def cutAt (sep : Char) (s : String) : String × String × Bool :=
  match indexOfChar sep s with
  | none => (s, "", false)
  | some i => (s.take i, s.drop (i + 1), true)

/-- Strip trailing `/` characters (the loop in `filepath.Base`). -/
def dropTrailingSlashes (s : String) : String :=
  String.mk ((s.toList.reverse.dropWhile (· = '/')).reverse)

/-- Model of Go's `filepath.Base` on a Unix system: the last element of the
path after trailing separators are removed; `"."` for the empty path, `"/"`
for a path of only separators. -/
def filepathBase (path : String) : String :=
  if path = "" then "."
  else
    let p := dropTrailingSlashes path
    let p2 :=
      match lastIndexOfChar '/' p with
      | some i => p.drop (i + 1)
      | none => p
    if p2 = "" then "/" else p2

/-- The open-brace character, kept out of string literals. -/
def braceOpen : Char := Char.ofNat 123

/-- The close-brace character, kept out of string literals. -/
def braceClose : Char := Char.ofNat 125

/-! ## Model of `net/url` -/

/-- Model of `url.URL`.  String-valued components are stored in escaped
(wire) form, so `path` plays the role of Go's `EscapedPath()`,
`user` of the raw userinfo, and `fragment` of `EscapedFragment()`. -/
structure URLm where
  scheme : String := ""
  opq : String := ""
  user : Option String := none
  host : String := ""
  path : String := ""
  forceQuery : Bool := false
  rawQuery : String := ""
  fragment : String := ""
  omitHost : Bool := false
deriving DecidableEq, Repr

/-- Character class test for the first, alphabetic characters of a scheme. -/
def isSchemeLetter (c : Char) : Bool :=
  ('a' ≤ c && c ≤ 'z') || ('A' ≤ c && c ≤ 'Z')

/-- Character class test for the non-initial extra characters of a scheme. -/
def isSchemeExtra (c : Char) : Bool :=
  ('0' ≤ c && c ≤ '9') || c = '+' || c = '-' || c = '.'

/-- Worker for `getScheme`, walking the characters with their index. -/
def getSchemeAux (rawURL : String) : List Char → Nat → Except String (String × String)
  | [], _ => .ok ("", rawURL)
  | c :: cs, i =>
    if isSchemeLetter c then getSchemeAux rawURL cs (i + 1)
    else if isSchemeExtra c then
      if i = 0 then .ok ("", rawURL) else getSchemeAux rawURL cs (i + 1)
    else if c = ':' then
      if i = 0 then .error "missing protocol scheme"
      else .ok (rawURL.take i, rawURL.drop (i + 1))
    else .ok ("", rawURL)

/-- Model of `net/url`'s `getScheme`: splits `scheme:rest`, returns an empty
scheme when the prefix is not a valid scheme, and fails on a leading `:`. -/
def getScheme (rawURL : String) : Except String (String × String) :=
  getSchemeAux rawURL rawURL.toList 0

/-- Control-byte test of `stringContainsCTLByte`. -/
def containsCTL (s : String) : Bool :=
  s.toList.any fun c => c.toNat < 0x20 || c.toNat = 0x7f

/-- Hexadecimal-digit test (`ishex`). -/
def isHexDig (c : Char) : Bool :=
  c.isDigit || ('a' ≤ c && c ≤ 'f') || ('A' ≤ c && c ≤ 'F')

/-- Worker for `unescapeOk`. -/
def unescapeOkAux : List Char → Bool
  | [] => true
  | '%' :: a :: b :: rest => isHexDig a && isHexDig b && unescapeOkAux rest
  | '%' :: _ => false
  | _ :: rest => unescapeOkAux rest

/-- Validity of percent-escapes, the failure condition of `net/url`'s
`unescape` in this model (components are kept in escaped form). -/
def unescapeOk (s : String) : Bool :=
  unescapeOkAux s.toList

/-- Model of `validOptionalPort`: empty, or `:` followed by digits only. -/
def validOptionalPort (port : String) : Bool :=
  if port = "" then true
  else
    match port.toList with
    | ':' :: rest => rest.all Char.isDigit
    | _ => false

/-- Model of Go's `%q` on the strings appearing in this development (none of
which contain characters that `strconv.Quote` would escape). -/
def goQuote (s : String) : String := "\"" ++ s ++ "\""

/-- Model of `net/url`'s `parseHost`: bracket and port validation plus
escape well-formedness; the host is kept in escaped form. -/
def parseHost (host : String) : Except String String :=
  if strStartsWith host "[" then
    match lastIndexOfChar ']' host with
    | none => .error "missing ']' in host"
    | some i =>
      let colonPort := host.drop (i + 1)
      if ¬ validOptionalPort colonPort then
        .error ("invalid port " ++ goQuote colonPort ++ " after host")
      else if unescapeOk host then .ok host
      else .error "invalid URL escape"
  else
    match lastIndexOfChar ':' host with
    | some i =>
      let colonPort := host.drop i
      if ¬ validOptionalPort colonPort then
        .error ("invalid port " ++ goQuote colonPort ++ " after host")
      else if unescapeOk host then .ok host
      else .error "invalid URL escape"
    | none =>
      if unescapeOk host then .ok host else .error "invalid URL escape"

/-- Model of `parseAuthority`: split the userinfo at the last `@`, validate
the host, keep the userinfo raw (its escape well-formedness checked). -/
def parseAuthority (authority : String) : Except String (Option String × String) :=
  match lastIndexOfChar '@' authority with
  | none => (parseHost authority).map fun h => (none, h)
  | some i =>
    let userinfo := authority.take i
    (parseHost (authority.drop (i + 1))).bind fun h =>
      if unescapeOk userinfo then .ok (some userinfo, h)
      else .error "net/url: invalid userinfo"

/-- Model of `net/url`'s internal `parse(rawURL, viaRequest=false)` (the
fragment has already been cut off by `URLm.parse`). -/
def parseNoFrag (rawURL : String) : Except String URLm :=
  if containsCTL rawURL then .error "net/url: invalid control character in URL"
  else if rawURL = "*" then .ok { path := "*" }
  else
    match getScheme rawURL with
    | .error e => .error e
    | .ok (scheme0, rest0) =>
      let scheme := strToLower scheme0
      let (rest, forceQuery, rawQuery) :=
        if strEndsWith rest0 "?" && ¬ strContains (rest0.dropRight 1) '?' then
          (rest0.dropRight 1, true, "")
        else
          let (bef, aft, _) := cutAt '?' rest0
          (bef, false, aft)
      if ¬ strStartsWith rest "/" then
        if scheme ≠ "" then
          -- rootless paths after a scheme are opq per RFC 3986
          .ok { scheme := scheme, opq := rest, forceQuery := forceQuery, rawQuery := rawQuery }
        else
          let (segment, _, _) := cutAt '/' rest
          if strContains segment ':' then .error "first path segment in URL cannot contain colon"
          else if unescapeOk rest then
            .ok { scheme := scheme, path := rest, forceQuery := forceQuery, rawQuery := rawQuery }
          else .error "invalid URL escape"
      else
        if strStartsWith rest "//" && (scheme ≠ "" || ¬ strStartsWith rest "///") then
          let authorityAndRest := rest.drop 2
          let (authority, rest2) :=
            match indexOfChar '/' authorityAndRest with
            | none => (authorityAndRest, "")
            | some i => (authorityAndRest.take i, authorityAndRest.drop i)
          match parseAuthority authority with
          | .error e => .error e
          | .ok (user, host) =>
            if unescapeOk rest2 then
              .ok { scheme := scheme, user := user, host := host, path := rest2,
                    forceQuery := forceQuery, rawQuery := rawQuery }
            else .error "invalid URL escape"
        else
          if unescapeOk rest then
            .ok { scheme := scheme, path := rest, omitHost := scheme ≠ "",
                  forceQuery := forceQuery, rawQuery := rawQuery }
          else .error "invalid URL escape"

/-- Model of `url.Parse`: cut the fragment at the first `#`, parse the rest,
and validate the fragment; errors are wrapped as `parse "<url>": <err>`
exactly as `url.Error.Error()` renders them. -/
def URLm.parse (rawURL : String) : Except String URLm :=
  let (u, frag, _) := cutAt '#' rawURL
  match parseNoFrag u with
  | .error e => .error ("parse " ++ goQuote u ++ ": " ++ e)
  | .ok url =>
    if frag = "" then .ok url
    else if unescapeOk frag then .ok { url with fragment := frag }
    else .error ("parse " ++ goQuote rawURL ++ ": " ++ "invalid URL escape")

/-- Model of `url.URL.IsAbs`: the URL has a scheme. -/
def URLm.isAbs (u : URLm) : Bool := u.scheme ≠ ""

/-- Segment pass of `net/url`'s `resolvePath`: `.` is dropped, `..` pops
the last collected segment, everything else is appended. -/
def resolvePathSegs (src : List String) : List String :=
  src.foldl
    (fun dst elem =>
      if elem = "." then dst
      else if elem = ".." then dst.dropLast
      else dst ++ [elem])
    []

/-- Model of `net/url`'s `resolvePath` (RFC 3986 merge + remove dot
segments, as the Go standard library implements it): merge the reference
into the base path, process the segments, restore a trailing slash after a
final dot segment, and return the result with exactly one leading `/`. -/
def resolvePath (base ref : String) : String :=
  let full :=
    if ref = "" then base
    else if ¬ strStartsWith ref "/" then
      match lastIndexOfChar '/' base with
      | none => ref
      | some i => base.take (i + 1) ++ ref
    else ref
  if full = "" then ""
  else
    let src := splitOnChar '/' full
    let dst := resolvePathSegs src
    let dst := if src.getLastD "" = "." || src.getLastD "" = ".." then dst ++ [""] else dst
    let joined := String.intercalate "/" dst
    "/" ++ (if strStartsWith joined "/" then joined.drop 1 else joined)

/-- Model of `url.URL.ResolveReference` (standard reference resolution as
the Go standard library implements it). -/
def URLm.resolveReference (u ref : URLm) : URLm :=
  let url0 := if ref.scheme = "" then { ref with scheme := u.scheme } else ref
  if ref.scheme ≠ "" || ref.host ≠ "" || ref.user ≠ none then
    { url0 with path := resolvePath ref.path "" }
  else if ref.opq ≠ "" then
    { url0 with user := none, host := "", path := "" }
  else
    let url1 :=
      if ref.path = "" && ¬ ref.forceQuery && ref.rawQuery = "" then
        let url' := { url0 with rawQuery := u.rawQuery }
        if ref.fragment = "" then { url' with fragment := u.fragment } else url'
      else url0
    if ref.path = "" && u.opq ≠ "" then
      { url1 with opq := u.opq }
    else
      { url1 with host := u.host, user := u.user, path := resolvePath u.path ref.path }

/-- Model of `url.URL.String`: reassemble the URL from its components. -/
def URLm.render (u : URLm) : String :=
  let schemePart := if u.scheme ≠ "" then u.scheme ++ ":" else ""
  let queryPart := if u.forceQuery || u.rawQuery ≠ "" then "?" ++ u.rawQuery else ""
  let fragPart := if u.fragment ≠ "" then "#" ++ u.fragment else ""
  if u.opq ≠ "" then schemePart ++ u.opq ++ queryPart ++ fragPart
  else
    let authPart :=
      if u.scheme ≠ "" || u.host ≠ "" || u.user ≠ none then
        if u.omitHost && u.host = "" && u.user = none then ""
        else
          (if u.host ≠ "" || u.path ≠ "" || u.user ≠ none then "//" else "")
          ++ (match u.user with | some ui => ui ++ "@" | none => "")
          ++ u.host
      else ""
    let slashFix := if u.path ≠ "" && ¬ strStartsWith u.path "/" && u.host ≠ "" then "/" else ""
    let dotSlash :=
      if schemePart ++ authPart ++ slashFix = "" then
        let (segment, _, _) := cutAt '/' u.path
        if strContains segment ':' then "./" else ""
      else ""
    schemePart ++ authPart ++ slashFix ++ dotSlash ++ u.path ++ queryPart ++ fragPart

/-! ## Model of `encoding/json` -/

/-- JSON values, the domain of `json.Marshal` in this model (every Go value
the repository serializes denotes such a value). -/
inductive Json where
  | null : Json
  | bool : Bool → Json
  | num : Int → Json
  | str : String → Json
  | arr : List Json → Json
  | obj : List (String × Json) → Json
deriving Repr

mutual

/-- Model of `json.Marshal` on JSON-representable values whose strings need
no escaping (all payloads in this development are of that form). -/
def Json.render : Json → String
  | .null => "null"
  | .bool true => "true"
  | .bool false => "false"
  | .num n => toString n
  | .str s => "\"" ++ s ++ "\""
  | .arr xs => "[" ++ Json.renderArr xs ++ "]"
  | .obj fs => braceOpen.toString ++ Json.renderObj fs ++ braceClose.toString

/-- Comma-separated rendering of array elements. -/
def Json.renderArr : List Json → String
  | [] => ""
  | [x] => x.render
  | x :: xs => x.render ++ "," ++ Json.renderArr xs

/-- Comma-separated rendering of object members. -/
def Json.renderObj : List (String × Json) → String
  | [] => ""
  | [(k, v)] => "\"" ++ k ++ "\":" ++ v.render
  | (k, v) :: fs => "\"" ++ k ++ "\":" ++ v.render ++ "," ++ Json.renderObj fs

end

/-- JSON whitespace test. -/
def isJsonWs (c : Char) : Bool :=
  c = ' ' || c = '\t' || c = '\n' || c = '\r'

/-- Skip JSON whitespace. -/
def skipWs (l : List Char) : List Char :=
  l.dropWhile isJsonWs

/-- Consume the remainder of a JSON string literal (the opening quote has
already been consumed); returns the input after the closing quote. -/
def jsonStringTail : List Char → Option (List Char)
  | [] => none
  | '"' :: rest => some rest
  | '\\' :: 'u' :: a :: b :: c :: d :: rest =>
    if isHexDig a && isHexDig b && isHexDig c && isHexDig d then jsonStringTail rest else none
  | '\\' :: e :: rest =>
    if e = '"' || e = '\\' || e = '/' || e = 'b' || e = 'f' || e = 'n' || e = 'r' || e = 't'
    then jsonStringTail rest else none
  | c :: rest => if c.toNat < 0x20 then none else jsonStringTail rest

/-- Consume the exponent part of a JSON number, if present. -/
def jsonExpTail (l : List Char) : Option (List Char) :=
  match l with
  | 'e' :: r | 'E' :: r =>
    let r2 := match r with
      | '+' :: r3 => r3
      | '-' :: r3 => r3
      | _ => r
    match r2 with
    | c :: r4 => if c.isDigit then some (r4.dropWhile Char.isDigit) else none
    | [] => none
  | _ => some l

/-- Consume the fraction and exponent parts of a JSON number, if present. -/
def jsonFracTail (l : List Char) : Option (List Char) :=
  match l with
  | '.' :: r =>
    match r with
    | c :: r2 => if c.isDigit then jsonExpTail (r2.dropWhile Char.isDigit) else none
    | [] => none
  | _ => jsonExpTail l

/-- Consume a JSON number. -/
def jsonNumberTail (l : List Char) : Option (List Char) :=
  let l1 := match l with
    | '-' :: r => r
    | _ => l
  match l1 with
  | '0' :: r => jsonFracTail r
  | c :: r => if c.isDigit then jsonFracTail (r.dropWhile Char.isDigit) else none
  | [] => none

mutual

/-- Fueled recogniser for one JSON value; the fuel bounds the nesting and
is in practice covered by the input length. -/
def jsonValueTail : Nat → List Char → Option (List Char)
  | 0, _ => none
  | Nat.succ fuel, l =>
    match skipWs l with
    | 'n' :: 'u' :: 'l' :: 'l' :: rest => some rest
    | 't' :: 'r' :: 'u' :: 'e' :: rest => some rest
    | 'f' :: 'a' :: 'l' :: 's' :: 'e' :: rest => some rest
    | '"' :: rest => jsonStringTail rest
    | c :: rest =>
      if c = braceOpen then
        match skipWs rest with
        | c2 :: rest2 =>
          if c2 = braceClose then some rest2 else jsonObjectItems fuel (c2 :: rest2)
        | [] => none
      else if c = '[' then
        match skipWs rest with
        | ']' :: rest2 => some rest2
        | rest2 => jsonArrayItems fuel rest2
      else jsonNumberTail (c :: rest)
    | [] => none

/-- Fueled recogniser for the elements of a JSON array after `[`. -/
def jsonArrayItems : Nat → List Char → Option (List Char)
  | 0, _ => none
  | Nat.succ fuel, l =>
    match jsonValueTail fuel l with
    | none => none
    | some r =>
      match skipWs r with
      | ']' :: r2 => some r2
      | ',' :: r2 => jsonArrayItems fuel r2
      | _ => none

/-- Fueled recogniser for the members of a JSON object after the open
brace. -/
def jsonObjectItems : Nat → List Char → Option (List Char)
  | 0, _ => none
  | Nat.succ fuel, l =>
    match skipWs l with
    | '"' :: r =>
      match jsonStringTail r with
      | none => none
      | some r2 =>
        match skipWs r2 with
        | ':' :: r3 =>
          match jsonValueTail fuel r3 with
          | none => none
          | some r4 =>
            match skipWs r4 with
            | c :: r5 =>
              if c = braceClose then some r5
              else if c = ',' then jsonObjectItems fuel r5
              else none
            | [] => none
        | _ => none
    | _ => none

end

/-- Model of the success condition of `json.Unmarshal(body, &response)` for
a pointer-to-interface destination: the body is one syntactically valid
JSON document (with possible surrounding whitespace). -/
def jsonValid (s : String) : Bool :=
  let l := s.toList
  match jsonValueTail (l.length + 1) l with
  | none => false
  | some rest => (skipWs rest).isEmpty

/-! ## Model of the HTTP layer and of Go interface arguments -/

/-- Model of a Go `interface\x7b\x7d` argument: the nil interface, or a
non-nil interface value.  `addrOf g` stands for `&x` where `x` held `g`;
in Go a pointer obtained with `&` is never nil, so an interface wrapping
it is never the nil interface. -/
inductive GoInterface where
  | nil : GoInterface
  | addrOf : GoInterface → GoInterface
deriving DecidableEq, Repr

/-- One part of a multipart body: either a file part as written by
`multipart.Writer.CreateFormFile` followed by `io.Copy` (field name,
attachment filename, file contents), or a form-value part as written by
`multipart.Writer.WriteField`. -/
inductive MPart where
  | file : String → String → String → MPart
  | field : String → String → MPart
deriving DecidableEq, Repr

/-- Model of the buffer written through a `multipart.Writer`: the writer's
boundary, the parts in the order written, and whether `Close` was called
(finalizing the boundary trailer). -/
structure MultipartBody where
  boundary : String
  parts : List MPart
  closed : Bool
deriving DecidableEq, Repr

/-- Model of a request body: the raw bytes handed to the request
(`bytes.NewReader(jsonData)`), or a multipart buffer. -/
inductive Body where
  | raw : String → Body
  | multipart : MultipartBody → Body
deriving DecidableEq, Repr

/-- Look up a header value (`http.Header.Get`; the keys used by this
codebase are already in canonical MIME form, so canonicalization is the
identity on them). -/
def headerGet (h : List (String × String)) (k : String) : Option String :=
  (h.find? fun kv => kv.1 == k).map Prod.snd

/-- Replace a header (`http.Header.Set`). -/
def headerSet (h : List (String × String)) (k v : String) : List (String × String) :=
  (h.filter fun kv => kv.1 != k) ++ [(k, v)]

/-- Add a header (`http.Header.Add`). -/
def headerAdd (h : List (String × String)) (k v : String) : List (String × String) :=
  h ++ [(k, v)]

/-- Model of `http.Request`: method, parsed target URL, headers, body. -/
structure Request where
  method : String
  url : URLm
  header : List (String × String)
  body : Option Body
deriving DecidableEq, Repr

/-- Model of `http.Response`: status code and the readable body content. -/
structure Response where
  statusCode : Nat
  body : String
deriving DecidableEq, Repr

/-- Model of `http.NewRequest(method, url, body)`: the target is parsed
with `url.Parse`; the methods used by this codebase are valid method
tokens, so method validation cannot fail and is not modelled. -/
def newRequest (method urlStr : String) (body : Option Body) : Except String Request :=
  (URLm.parse urlStr).map fun u =>
    { method := method, url := u, header := [], body := body }

/-- The external collaborators: the HTTP transport (`http.Client.Do`),
the filesystem (`os.Open` + reading, by path: file contents on the right,
the `*PathError` message on the left), and the boundary the
`multipart.Writer` generates for this call. -/
structure Env where
  transport : Request → Except String Response
  fs : String → Except String String
  boundary : String

/-! ## Embedding of `client.go` and `multipart_form.go` -/

/-- Embedding of `MultipartForm` (multipart_form.go).  Go iterates the two
maps in unspecified order; the model fixes one iteration order per map by
using association lists.  No claim depends on the order within one map. -/
structure MultipartForm where
  fields : List (String × String)
  files : List (String × String)
deriving DecidableEq, Repr

/-- Embedding of `NewMultipartForm` (multipart_form.go): both maps empty. -/
def NewMultipartForm : MultipartForm :=
  { fields := [], files := [] }

/-- Embedding of `Client` (client.go lines 21-27): parsed base URL, API
key, and the last-response / last-body diagnostic fields (both nil after
construction). -/
structure Client where
  url : URLm
  apiKey : String
  lastResponse : Option Response
  lastBody : Option String
deriving DecidableEq, Repr

/-- Embedding of `NewClient` (client.go lines 29-44): reject an empty API
key, parse the base URL propagating its error, reject a non-absolute URL,
and otherwise return the configured client. -/
def NewClient (surl apiKey : String) : Except String Client :=
  if apiKey = "" then .error "api key is empty"
  else
    match URLm.parse surl with
    | .error e => .error e
    | .ok nurl =>
      if ¬ nurl.isAbs then .error "URL is not absolute"
      else .ok { url := nurl, apiKey := apiKey, lastResponse := none, lastBody := none }

/-- Embedding of `Client.GetQuery` (client.go lines 46-57): parse the URI
propagating its error, reject an absolute URI, and otherwise resolve it
against the base URL and render the result. -/
def GetQuery (c : Client) (uri : String) : Except String String :=
  match URLm.parse uri with
  | .error e => .error e
  | .ok nurl =>
    if nurl.isAbs then .error "URI is not absolute"
    else .ok (c.url.resolveReference nurl).render

/-- Embedding of `Client.MakeRequest` (client.go lines 59-71): resolve the
query and build a bodyless request. -/
def MakeRequest (c : Client) (method uri : String) : Except String Request :=
  match GetQuery c uri with
  | .error e => .error e
  | .ok query => newRequest method query none

/-- The file-part loop of `MakeMultipartRequest` (client.go lines 84-99):
for each file field open the file — failing with
`Error with file <path>, <err>` if it cannot be opened — and write a file
part whose filename is `filepath.Base` of the path and whose contents are
copied from the file. -/
def writeFileParts (env : Env) : List (String × String) → Except String (List MPart)
  | [] => .ok []
  | (fieldName, file) :: rest =>
    match env.fs file with
    | .error e => .error ("Error with file " ++ file ++ ", " ++ e)
    | .ok contents =>
      (writeFileParts env rest).map fun parts =>
        MPart.file fieldName (filepathBase file) contents :: parts

/-- Embedding of `Client.MakeMultipartRequest` (client.go lines 73-121):
resolve the query; write all file parts, then all form-value parts
(`w.WriteField` on a buffer-backed writer cannot fail); close the writer
(`w.Close` on a buffer cannot fail); build the request around the buffer
and add the writer's `Content-Type` with its generated boundary. -/
def MakeMultipartRequest (env : Env) (c : Client) (method uri : String)
    (mpf : MultipartForm) : Except String Request :=
  match GetQuery c uri with
  | .error e => .error e
  | .ok query =>
    match writeFileParts env mpf.files with
    | .error e => .error e
    | .ok fileParts =>
      let fieldParts := mpf.fields.map fun fv => MPart.field fv.1 fv.2
      let mb : MultipartBody :=
        { boundary := env.boundary, parts := fileParts ++ fieldParts, closed := true }
      match newRequest method query (some (Body.multipart mb)) with
      | .error e => .error e
      | .ok req =>
        .ok { req with
              header := headerAdd req.header "Content-Type"
                ("multipart/form-data; boundary=" ++ env.boundary) }

/-- The request `GetResponse` hands to the transport: the incoming request
with the token header set when the API key is non-empty (client.go lines
133-135; the header name is spelled exactly as in the source). -/
def authedRequest (c : Client) (r : Request) : Request :=
  if c.apiKey ≠ "" then
    { r with header := headerSet r.header "Autorization" ("Token token=\"" ++ c.apiKey ++ "\"") }
  else r

/-- Embedding of `Client.GetResponse` (client.go lines 132-144): set the
token header, perform the exchange, return `(nil, err)` on a transport
error, and record the response in `LastResponse` on success. -/
def GetResponse (env : Env) (c : Client) (r : Request) :
    Except String Response × Client :=
  match env.transport (authedRequest c r) with
  | .error e => (.error e, c)
  | .ok res => (.ok res, { c with lastResponse := some res })

/-- Embedding of `Client.jsonResponse` (client.go lines 198-220): if the
`response` argument is the nil interface return immediately; otherwise
execute the request, read the whole body into `LastBody` (reading a
transport-supplied string cannot fail in the model), and unmarshal it,
reporting `Invalid JSON: <body>` when the body is not valid JSON. -/
def jsonResponse (env : Env) (c : Client) (req : Request) (response : GoInterface) :
    Except String Unit × Client :=
  match response with
  | .nil => (.ok (), c)
  | _ =>
    match GetResponse env c req with
    | (.error e, c1) => (.error e, c1)
    | (.ok res, c1) =>
      let c2 := { c1 with lastBody := some res.body }
      if jsonValid res.body then (.ok (), c2)
      else (.error ("Invalid JSON: " ++ res.body), c2)

/-- Embedding of `Client.ReadJson` (client.go lines 146-153): build a GET
request and pass `&response` — which is never the nil interface — to
`jsonResponse`. -/
def ReadJson (env : Env) (c : Client) (uri : String) (response : GoInterface) :
    Except String Unit × Client :=
  match MakeRequest c "GET" uri with
  | .error e => (.error e, c)
  | .ok req => jsonResponse env c req (GoInterface.addrOf response)

/-- Embedding of `Client.DeleteJson` (client.go lines 155-162). -/
def DeleteJson (env : Env) (c : Client) (uri : String) (response : GoInterface) :
    Except String Unit × Client :=
  match MakeRequest c "DELETE" uri with
  | .error e => (.error e, c)
  | .ok req => jsonResponse env c req (GoInterface.addrOf response)

/-- The request built by `CreateJson` before execution (client.go lines
164-176): a POST whose `Content-Type` header is set to the string spelled
exactly as in the source and whose body is the marshalled payload. -/
def CreateJsonRequest (c : Client) (uri : String) (data : Json) : Except String Request :=
  match MakeRequest c "POST" uri with
  | .error e => .error e
  | .ok req =>
    let jsonData := data.render
    .ok { req with
          header := headerSet req.header "Content-Type" "application.json",
          body := some (Body.raw jsonData) }

/-- Embedding of `Client.CreateJson` (client.go lines 164-179): build the
POST request with the marshalled payload (`json.Marshal` cannot fail on a
JSON-representable payload) and pass `&response` to `jsonResponse`. -/
def CreateJson (env : Env) (c : Client) (uri : String) (data : Json)
    (response : GoInterface) : Except String Unit × Client :=
  match CreateJsonRequest c uri data with
  | .error e => (.error e, c)
  | .ok req => jsonResponse env c req (GoInterface.addrOf response)

/-- The request built by `UpdateJson` before execution (client.go lines
181-193): a PUT with `Content-Type: application/json` and the marshalled
payload as body. -/
def UpdateJsonRequest (c : Client) (uri : String) (data : Json) : Except String Request :=
  match MakeRequest c "PUT" uri with
  | .error e => .error e
  | .ok req =>
    let jsonData := data.render
    .ok { req with
          header := headerSet req.header "Content-Type" "application/json",
          body := some (Body.raw jsonData) }

/-- Embedding of `Client.UpdateJson` (client.go lines 181-196). -/
def UpdateJson (env : Env) (c : Client) (uri : String) (data : Json)
    (response : GoInterface) : Except String Unit × Client :=
  match UpdateJsonRequest c uri data with
  | .error e => (.error e, c)
  | .ok req => jsonResponse env c req (GoInterface.addrOf response)

/-- Embedding of `Client.PostMultipartJson` (client.go lines 123-130):
build the multipart POST request and pass `&data` to `jsonResponse`. -/
def PostMultipartJson (env : Env) (c : Client) (uri : String) (mpf : MultipartForm)
    (data : GoInterface) : Except String Unit × Client :=
  match MakeMultipartRequest env c "POST" uri mpf with
  | .error e => (.error e, c)
  | .ok req => jsonResponse env c req (GoInterface.addrOf data)

/-- Modelled from the spec: `NewBasicAuthClient(baseURL, username,
password)` is called by one of the repository's test files but its
definition is not present under src/.  Spec section 4.1: construction
fails with a config error if username or password is empty, or if the
base URL fails to parse or is not absolute; the error message names the
empty field; on success the client is configured for basic
authentication. -/
structure BasicAuthClient where
  url : URLm
  username : String
  password : String
deriving DecidableEq, Repr

/-- Modelled from the spec: the constructor for basic-authentication
clients described in spec section 4.1 (see `BasicAuthClient`). -/
def NewBasicAuthClient (surl username password : String) :
    Except String BasicAuthClient :=
  if username = "" then .error "username is empty"
  else if password = "" then .error "password is empty"
  else
    match URLm.parse surl with
    | .error e => .error e
    | .ok nurl =>
      if ¬ nurl.isAbs then .error "URL is not absolute"
      else .ok { url := nurl, username := username, password := password }

/-! ## Concrete fixtures used to instantiate the theorems -/

/-- The parse of `https://ms.example.com`, the base URL the repository's
own tests use. -/
def msURL : URLm := { scheme := "https", host := "ms.example.com" }

/-- The client the repository's tests construct:
`NewClient("https://ms.example.com", "apiKey")`. -/
def testClient : Client :=
  { url := msURL, apiKey := "apiKey", lastResponse := none, lastBody := none }

/-- Transport oracle answering every request with status 200 and the given
body. -/
def constTransport (body : String) : Request → Except String Response :=
  fun _ => .ok { statusCode := 200, body := body }

/-- Transport oracle failing every exchange with the given message. -/
def errTransport (e : String) : Request → Except String Response :=
  fun _ => .error e

/-- Filesystem oracle with no files at all. -/
def emptyFs : String → Except String String :=
  fun p => .error ("open " ++ p ++ ": no such file or directory")

/-- Filesystem oracle where every path holds the contents `data`. -/
def constFs : String → Except String String :=
  fun _ => .ok "data"

/-- Environment whose transport answers `not json` to everything. -/
def envNotJson : Env :=
  { transport := constTransport "not json", fs := emptyFs, boundary := "b1" }

/-- A request with no headers, the starting point for header observations. -/
def bareRequest : Request :=
  { method := "GET", url := msURL, header := [], body := none }

/-- The payload the repository's create/update tests marshal. -/
def payload0 : Json := Json.obj [("Name", Json.str "new_name")]

/-- Contents of a path under a filesystem oracle, defaulting to `""`
(only used where the oracle is known to succeed). -/
def fsContents (env : Env) (p : String) : String :=
  match env.fs p with
  | .ok s => s
  | .error _ => ""

/-! ## Claims -/

/-- C1: the claim says a read/create/update/delete/multipart call with a
null decode destination never reads the response body and cannot fail on
malformed body content.  The code contradicts it: every caller passes
`&response` to `jsonResponse`, and in Go the address of a local variable
wrapped in an interface is never the nil interface, so the `response ==
nil` guard at client.go:199 never fires on these paths.  Evaluated at a
transport whose body is `not json`, every one of the five calls with a nil
destination reads the body (it lands in `LastBody`) and fails with
`Invalid JSON: not json`. -/
theorem C1_nil_destination_still_decodes :
    (ReadJson envNotJson testClient "/api/foo" GoInterface.nil).1
      = .error "Invalid JSON: not json" ∧
    (ReadJson envNotJson testClient "/api/foo" GoInterface.nil).2.lastBody
      = some "not json" ∧
    (DeleteJson envNotJson testClient "/api/foo" GoInterface.nil).1
      = .error "Invalid JSON: not json" ∧
    (CreateJson envNotJson testClient "/api/foo" payload0 GoInterface.nil).1
      = .error "Invalid JSON: not json" ∧
    (UpdateJson envNotJson testClient "/api/foo" payload0 GoInterface.nil).1
      = .error "Invalid JSON: not json" ∧
    (PostMultipartJson envNotJson testClient "/api/foo" NewMultipartForm GoInterface.nil).1
      = .error "Invalid JSON: not json" :=
  ⟨by rfl, by rfl, by rfl, by rfl, by rfl, by rfl⟩

/-- C2: the claim says the token header's name is the standard
`Authorization`.  The code spells it `Autorization` (client.go:134): the
request handed to the transport carries no `Authorization` header, and
carries the token value — of the claimed shape — under the misspelled
name. -/
theorem C2_auth_header_name_misspelled :
    headerGet (authedRequest testClient bareRequest).header "Authorization" = none ∧
    headerGet (authedRequest testClient bareRequest).header "Autorization"
      = some "Token token=\"apiKey\"" :=
  ⟨by rfl, by rfl⟩

/-- C3: the claim says create and update both send the serialized JSON
payload with content-type `application/json`.  The body part holds for
both, and `UpdateJson` sets the claimed content-type, but `CreateJson`
sets `application.json` (client.go:175, a dot instead of a slash).  The
final conjunct shows execution does not alter the body, so the transport
sees exactly the serialized JSON. -/
theorem C3_create_json_content_type_typo :
    (CreateJsonRequest testClient "/api/foo" payload0).map
        (fun req => (headerGet req.header "Content-Type", req.body))
      = .ok (some "application.json", some (Body.raw payload0.render)) ∧
    (UpdateJsonRequest testClient "/api/foo" payload0).map
        (fun req => (headerGet req.header "Content-Type", req.body))
      = .ok (some "application/json", some (Body.raw payload0.render)) ∧
    payload0.render = "\x7b\"Name\":\"new_name\"\x7d" ∧
    (∀ c r, (authedRequest c r).body = r.body) := by
  refine ⟨by rfl, by rfl, by rfl, fun c r => ?_⟩
  unfold authedRequest
  split <;> rfl

/-- C4: for every client and URI, `GetQuery` returns the rendering of the
standard reference resolution (as `net/url` implements it) of the URI
against the client's base URL when the URI parses and is relative, and
fails when the URI is absolute or fails to parse (propagating the parse
error). -/
theorem C4_getquery_standard_resolution (c : Client) (uri : String) :
    (∀ n, URLm.parse uri = .ok n → n.isAbs = false →
      GetQuery c uri = .ok (c.url.resolveReference n).render) ∧
    (∀ n, URLm.parse uri = .ok n → n.isAbs = true →
      GetQuery c uri = .error "URI is not absolute") ∧
    (∀ e, URLm.parse uri = .error e → GetQuery c uri = .error e) := by
  refine ⟨fun n h1 h2 => ?_, fun n h1 h2 => ?_, fun e h1 => ?_⟩
  · simp [GetQuery, h1, h2]
  · simp [GetQuery, h1, h2]
  · simp [GetQuery, h1]

/-- C4 witness: concrete instantiations — the relative URI of the
repository's tests resolves to `https://ms.example.com/api/foo`, an
absolute URI is rejected, and an unparsable URI propagates the parse
error. -/
theorem C4_getquery_standard_resolution_witness :
    GetQuery testClient "/api/foo" = .ok "https://ms.example.com/api/foo" ∧
    GetQuery testClient "https://ms.example.com" = .error "URI is not absolute" ∧
    GetQuery testClient ":" = .error "parse \":\": missing protocol scheme" := by
  have h := C4_getquery_standard_resolution testClient "/api/foo"
  have h2 := C4_getquery_standard_resolution testClient "https://ms.example.com"
  have h3 := C4_getquery_standard_resolution testClient ":"
  exact ⟨h.1 { path := "/api/foo" } (by rfl) (by rfl),
         h2.2.1 { scheme := "https", host := "ms.example.com" } (by rfl) (by rfl),
         h3.2.2 "parse \":\": missing protocol scheme" (by rfl)⟩

/-- C5 counterexample: the base URL string `HTTP://example.com` parses, is
absolute, and construction succeeds, but `net/url` lower-cases the scheme
on parsing, so the stored base URL's string form is `http://example.com`,
not the input. -/
theorem C5_roundtrip_counterexample :
    (URLm.parse "HTTP://example.com").map URLm.isAbs = .ok true ∧
    (NewClient "HTTP://example.com" "apiKey").map (fun c => c.url.render)
      = .ok "http://example.com" ∧
    "http://example.com" ≠ "HTTP://example.com" :=
  ⟨by rfl, by rfl, by decide⟩

/-- C5 amended: for every non-empty API key and base URL string that
parses to an absolute URL, construction succeeds and stores exactly the
parsed base URL — so the stored URL's string form is the rendering of the
parsed input, which equals the input itself whenever the input is already
in parse-canonical form (for instance, a lower-case scheme). -/
theorem C5_roundtrip_amended (s k : String) (u : URLm)
    (hk : k ≠ "") (hp : URLm.parse s = .ok u) (ha : u.isAbs = true) :
    NewClient s k = .ok { url := u, apiKey := k, lastResponse := none, lastBody := none } ∧
    (∀ c, NewClient s k = .ok c → c.url.render = u.render) := by
  have hmain : NewClient s k
      = .ok { url := u, apiKey := k, lastResponse := none, lastBody := none } := by
    simp [NewClient, hk, hp, ha]
  refine ⟨hmain, fun c hc => ?_⟩
  rw [hmain] at hc
  cases hc
  rfl

/-- C5 amended witness: the repository's own test input
`https://ms.example.com` is in parse-canonical form, so the round trip
holds there. -/
theorem C5_roundtrip_amended_witness :
    NewClient "https://ms.example.com" "apiKey"
      = .ok { url := msURL, apiKey := "apiKey", lastResponse := none, lastBody := none } ∧
    msURL.render = "https://ms.example.com" :=
  ⟨(C5_roundtrip_amended "https://ms.example.com" "apiKey" msURL
      (by decide) (by rfl) (by rfl)).1,
   by rfl⟩

/-- C6: construction fails on an empty API key (token mode) and on an
empty username or password (basic mode, modelled from the spec since its
constructor is absent from src/), with the error message naming the empty
field; it also fails when the base URL does not parse (propagating the
parse error) or parses non-absolute. -/
theorem C6_construction_validation :
    (∀ s, NewClient s "" = .error "api key is empty") ∧
    (∀ s k e, k ≠ "" → URLm.parse s = .error e → NewClient s k = .error e) ∧
    (∀ s k u, k ≠ "" → URLm.parse s = .ok u → u.isAbs = false →
      NewClient s k = .error "URL is not absolute") ∧
    (∀ s p, NewBasicAuthClient s "" p = .error "username is empty") ∧
    (∀ s usr, usr ≠ "" → NewBasicAuthClient s usr "" = .error "password is empty") ∧
    (∀ s usr p e, usr ≠ "" → p ≠ "" → URLm.parse s = .error e →
      NewBasicAuthClient s usr p = .error e) ∧
    (∀ s usr p u, usr ≠ "" → p ≠ "" → URLm.parse s = .ok u → u.isAbs = false →
      NewBasicAuthClient s usr p = .error "URL is not absolute") := by
  refine ⟨fun s => ?_, fun s k e hk hp => ?_, fun s k u hk hp ha => ?_,
         fun s p => ?_, fun s usr hu => ?_, fun s usr p e hu hp hparse => ?_,
         fun s usr p u hu hp hparse ha => ?_⟩
  · simp [NewClient]
  · simp [NewClient, hk, hp]
  · simp [NewClient, hk, hp, ha]
  · simp [NewBasicAuthClient]
  · simp [NewBasicAuthClient, hu]
  · simp [NewBasicAuthClient, hu, hp, hparse]
  · simp [NewBasicAuthClient, hu, hp, hparse, ha]

/-- C6 witness: each failure mode at a concrete input — empty API key,
unparsable base URL, relative base URL, empty username, empty password,
and the two URL failures in basic mode. -/
theorem C6_construction_validation_witness :
    NewClient "https://ms.example.com" "" = .error "api key is empty" ∧
    NewClient ":" "apiKey" = .error "parse \":\": missing protocol scheme" ∧
    NewClient "badurl" "apiKey" = .error "URL is not absolute" ∧
    NewBasicAuthClient "https://ms.example.com" "" "pass" = .error "username is empty" ∧
    NewBasicAuthClient "https://ms.example.com" "user" "" = .error "password is empty" ∧
    NewBasicAuthClient ":" "user" "pass" = .error "parse \":\": missing protocol scheme" ∧
    NewBasicAuthClient "badurl" "user" "pass" = .error "URL is not absolute" := by
  have h := C6_construction_validation
  exact ⟨h.1 _, h.2.1 _ _ _ (by decide) (by rfl),
         h.2.2.1 _ _ { path := "badurl" } (by decide) (by rfl) (by rfl),
         h.2.2.2.1 _ _, h.2.2.2.2.1 _ _ (by decide),
         h.2.2.2.2.2.1 _ _ _ _ (by decide) (by decide) (by rfl),
         h.2.2.2.2.2.2 _ _ _ { path := "badurl" } (by decide) (by decide) (by rfl) (by rfl)⟩

/-- Helper: when every file before some entry opens and that entry's path
fails to open, the file-part loop fails with the message naming that
path. -/
theorem writeFileParts_append_error (env : Env) (pre : List (String × String))
    (fieldName path e : String) (rest : List (String × String))
    (hpre : ∀ fp ∈ pre, ∃ s, env.fs fp.2 = .ok s)
    (hfail : env.fs path = .error e) :
    writeFileParts env (pre ++ (fieldName, path) :: rest)
      = .error ("Error with file " ++ path ++ ", " ++ e) := by
  induction pre with
  | nil => simp [writeFileParts, hfail]
  | cons fp pre ih =>
    obtain ⟨s, hs⟩ := hpre fp (List.mem_cons_self _ _)
    obtain ⟨fn, fpath⟩ := fp
    have h2 := ih fun q hq => hpre q (List.mem_cons_of_mem _ hq)
    simp only [List.cons_append, List.append_eq, writeFileParts, hs, h2]
    rfl

/-- C7: when a file field's path cannot be opened (and the files before it
in iteration order can), `MakeMultipartRequest` fails with the error
naming that path, and `PostMultipartJson` returns that error with the
client unchanged whatever the transport does — the failure happens before
any network call. -/
theorem C7_missing_file_fails_before_network
    (env : Env) (c : Client) (uri q : String) (mpf : MultipartForm)
    (pre : List (String × String)) (fieldName path e : String)
    (rest : List (String × String)) (d : GoInterface)
    (hq : GetQuery c uri = .ok q)
    (hsplit : mpf.files = pre ++ (fieldName, path) :: rest)
    (hpre : ∀ fp ∈ pre, ∃ s, env.fs fp.2 = .ok s)
    (hfail : env.fs path = .error e) :
    MakeMultipartRequest env c "POST" uri mpf
      = .error ("Error with file " ++ path ++ ", " ++ e) ∧
    (∀ t, PostMultipartJson { env with transport := t } c uri mpf d
      = (.error ("Error with file " ++ path ++ ", " ++ e), c)) := by
  have hw : writeFileParts env mpf.files
      = .error ("Error with file " ++ path ++ ", " ++ e) := by
    rw [hsplit]
    exact writeFileParts_append_error env pre fieldName path e rest hpre hfail
  constructor
  · simp [MakeMultipartRequest, hq, hw]
  · intro t
    have hw2 : writeFileParts { env with transport := t } mpf.files
        = .error ("Error with file " ++ path ++ ", " ++ e) := by
      rw [hsplit]
      exact writeFileParts_append_error _ pre fieldName path e rest hpre hfail
    simp [PostMultipartJson, MakeMultipartRequest, hq, hw2]

/-- Environment for the missing-file witness: no file opens. -/
def envNoFiles : Env :=
  { transport := constTransport "null", fs := emptyFs, boundary := "b2" }

/-- A form naming one missing file, as in spec property 8. -/
def mpfBad : MultipartForm :=
  { fields := [("name", "new_name")], files := [("f", "/nope/file.txt")] }

/-- C7 witness: a form with one unopenable file fails with the message
naming its path, under every transport, leaving the client unchanged. -/
theorem C7_missing_file_fails_before_network_witness :
    MakeMultipartRequest envNoFiles testClient "POST" "/api/foo" mpfBad
      = .error "Error with file /nope/file.txt, open /nope/file.txt: no such file or directory" ∧
    (∀ t, PostMultipartJson { envNoFiles with transport := t } testClient "/api/foo" mpfBad
        GoInterface.nil
      = (.error "Error with file /nope/file.txt, open /nope/file.txt: no such file or directory",
         testClient)) :=
  C7_missing_file_fails_before_network envNoFiles testClient "/api/foo"
    "https://ms.example.com/api/foo" mpfBad [] "f" "/nope/file.txt"
    "open /nope/file.txt: no such file or directory" [] GoInterface.nil
    (by rfl) (by rfl) (by simp) (by rfl)

/-- Helper: a successful file-part loop yields exactly one file part per
file field, in order, with the path's base name as the filename and the
file's contents. -/
theorem writeFileParts_ok_shape (env : Env) (files : List (String × String))
    (parts : List MPart) (h : writeFileParts env files = .ok parts) :
    parts = files.map fun fp => MPart.file fp.1 (filepathBase fp.2) (fsContents env fp.2) := by
  induction files generalizing parts with
  | nil =>
    simp only [writeFileParts] at h
    cases h
    rfl
  | cons fp rest ih =>
    obtain ⟨fn, fpath⟩ := fp
    simp only [writeFileParts] at h
    cases hfs : env.fs fpath with
    | error e => rw [hfs] at h; cases h
    | ok s =>
      rw [hfs] at h
      cases hrest : writeFileParts env rest with
      | error e => rw [hrest] at h; cases h
      | ok ps =>
        rw [hrest] at h
        cases h
        simp [List.map, ih ps hrest, fsContents, hfs]

/-- C8: whenever `MakeMultipartRequest` succeeds, the request body is a
multipart buffer in which every file part precedes every text-field part,
each file part's filename is the base name of its source path, the writer
was closed before the request was returned, and the request's
content-type header is the writer's generated boundary content-type. -/
theorem C8_multipart_structure (env : Env) (c : Client) (method uri : String)
    (mpf : MultipartForm) (req : Request)
    (h : MakeMultipartRequest env c method uri mpf = .ok req) :
    ∃ mb : MultipartBody,
      req.body = some (Body.multipart mb) ∧
      mb.closed = true ∧
      mb.boundary = env.boundary ∧
      headerGet req.header "Content-Type"
        = some ("multipart/form-data; boundary=" ++ env.boundary) ∧
      mb.parts
        = (mpf.files.map fun fp => MPart.file fp.1 (filepathBase fp.2) (fsContents env fp.2))
          ++ (mpf.fields.map fun fv => MPart.field fv.1 fv.2) := by
  unfold MakeMultipartRequest newRequest at h
  split at h
  · exact Except.noConfusion h
  next query hq =>
    split at h
    · exact Except.noConfusion h
    next fileParts hw =>
      dsimp only at h
      split at h
      · exact Except.noConfusion h
      next r hr =>
        cases hp : URLm.parse query with
        | error e => rw [hp] at hr; exact Except.noConfusion hr
        | ok pu =>
          rw [hp] at hr
          simp only [Except.map] at hr
          cases hr
          cases h
          refine ⟨_, rfl, rfl, rfl, ?_, ?_⟩
          · rfl
          · simp [writeFileParts_ok_shape env mpf.files fileParts hw]

/-- Environment for the multipart-success witness: every path opens with
contents `data`. -/
def envData : Env :=
  { transport := constTransport "null", fs := constFs, boundary := "bnd" }

/-- A form with one file field and one text field. -/
def mpfGood : MultipartForm :=
  { fields := [("name", "new_name")], files := [("f", "/tmp/a/file.txt")] }

/-- The request `MakeMultipartRequest` builds for `mpfGood` under
`envData`. -/
def mpfGoodReq : Request :=
  match MakeMultipartRequest envData testClient "POST" "/api/foo" mpfGood with
  | .ok r => r
  | .error _ => bareRequest

/-- C8 witness: on the concrete form, the body holds the file part (named
`file.txt`, the base name of `/tmp/a/file.txt`) before the text part, the
writer is closed, and the content-type carries the boundary. -/
theorem C8_multipart_structure_witness :
    mpfGoodReq.body = some (Body.multipart
      { boundary := "bnd",
        parts := [MPart.file "f" "file.txt" "data", MPart.field "name" "new_name"],
        closed := true }) ∧
    headerGet mpfGoodReq.header "Content-Type" = some "multipart/form-data; boundary=bnd" := by
  obtain ⟨mb, h1, h2, h3, h4, h5⟩ :=
    C8_multipart_structure envData testClient "POST" "/api/foo" mpfGood mpfGoodReq (by rfl)
  exact ⟨by rfl, h4⟩

/-- C9: whenever the response body is read but is not valid JSON, the call
fails with an error carrying the raw body, and the raw body is also
stored in the client's `LastBody` diagnostic. -/
theorem C9_decode_failure_carries_body (env : Env) (c : Client) (req : Request)
    (d : GoInterface) (res : Response)
    (hd : d ≠ GoInterface.nil)
    (hres : env.transport (authedRequest c req) = .ok res)
    (hbad : jsonValid res.body = false) :
    jsonResponse env c req d
      = (.error ("Invalid JSON: " ++ res.body),
         { c with lastResponse := some res, lastBody := some res.body }) := by
  cases d with
  | nil => exact absurd rfl hd
  | addrOf g => simp [jsonResponse, GetResponse, hres, hbad]

/-- C9 witness: with a transport answering `not json`, the call fails with
`Invalid JSON: not json` and `LastBody` holds the raw body. -/
theorem C9_decode_failure_carries_body_witness :
    jsonResponse envNotJson testClient bareRequest (GoInterface.addrOf GoInterface.nil)
      = (.error "Invalid JSON: not json",
         { testClient with lastResponse := some { statusCode := 200, body := "not json" },
                           lastBody := some "not json" }) :=
  C9_decode_failure_carries_body envNotJson testClient bareRequest
    (GoInterface.addrOf GoInterface.nil) { statusCode := 200, body := "not json" }
    (by decide) (by rfl) (by rfl)

/-- C10: when the transport fails, `GetResponse` returns the nil response
with that error unchanged and leaves the client — in particular
`LastResponse` — unchanged; `LastResponse` is only set on a successful
exchange. -/
theorem C10_transport_error_passthrough (env : Env) (c : Client) (r : Request) :
    (∀ e, env.transport (authedRequest c r) = .error e →
      GetResponse env c r = (.error e, c)) ∧
    (∀ res, env.transport (authedRequest c r) = .ok res →
      GetResponse env c r = (.ok res, { c with lastResponse := some res })) := by
  refine ⟨fun e h => ?_, fun res h => ?_⟩ <;> simp [GetResponse, h]

/-- Environment whose transport refuses every exchange. -/
def envFail : Env :=
  { transport := errTransport "connection refused", fs := emptyFs, boundary := "b3" }

/-- C10 witness: a refused exchange surfaces the transport error verbatim
with the client untouched, and a successful one records the response. -/
theorem C10_transport_error_passthrough_witness :
    GetResponse envFail testClient bareRequest = (.error "connection refused", testClient) ∧
    GetResponse envNotJson testClient bareRequest
      = (.ok { statusCode := 200, body := "not json" },
         { testClient with lastResponse := some { statusCode := 200, body := "not json" } }) :=
  ⟨(C10_transport_error_passthrough envFail testClient bareRequest).1
      "connection refused" (by rfl),
   (C10_transport_error_passthrough envNotJson testClient bareRequest).2
      { statusCode := 200, body := "not json" } (by rfl)⟩
